import Mathlib

/-!
Verification development for the billing lifecycle of the agency backend.

The embedding models dates at day granularity: a date is an `Int` counting
days since 1970-01-01 (the value of a JavaScript `Date` restricted to whole
days).  `addDays` corresponds to `setDate(getDate() + n)` (pure day-count
addition) and `addMonths` corresponds to `setMonth(getMonth() + n)`, whose
day-of-month overflow rolls into the following month exactly as ECMAScript's
`MakeDay` does.  Billing statuses and billing cycles are stored as strings,
as they are in the Mongo documents; the enum objects of the source become
lists of the admissible strings.
-/

/-! ## BillingClock: date arithmetic (utils/billingUtils.ts) -/

/-- Day number of a civil date (Howard Hinnant's `days_from_civil`,
the algorithm underlying ECMAScript `MakeDay`); month is 1-based.
Linear in `d`, so an out-of-range day rolls over exactly like JS. -/
def daysFromCivil (y m d : Int) : Int :=
  let y2 := if m ≤ 2 then y - 1 else y
  let era := Int.fdiv y2 400
  let yoe := y2 - era * 400
  let mp := Int.emod (m + 9) 12
  let doy := Int.fdiv (153 * mp + 2) 5 + d - 1
  let doe := yoe * 365 + Int.fdiv yoe 4 - Int.fdiv yoe 100 + doy
  era * 146097 + doe - 719468

/-- Civil date (year, month 1-12, day) of a day number
(Hinnant's `civil_from_days`). -/
def civilFromDays (z0 : Int) : Int × Int × Int :=
  let z := z0 + 719468
  let era := Int.fdiv z 146097
  let doe := z - era * 146097
  let yoe := Int.fdiv (doe - Int.fdiv doe 1460 + Int.fdiv doe 36524 - Int.fdiv doe 146096) 365
  let y := yoe + era * 400
  let doy := doe - (365 * yoe + Int.fdiv yoe 4 - Int.fdiv yoe 100)
  let mp := Int.fdiv (5 * doy + 2) 153
  let d := doy - Int.fdiv (153 * mp + 2) 5 + 1
  let m := if mp < 10 then mp + 3 else mp - 9
  (if m ≤ 2 then y + 1 else y, m, d)

/-- `addDays` from `utils/billingUtils.ts`: `result.setDate(result.getDate() + days)`,
i.e. plain day-count addition. -/
def addDays (date : Int) (days : Int) : Int := date + days

/-- `addMonths` from `utils/billingUtils.ts`: `result.setMonth(result.getMonth() + months)`.
JS months are 0-based; day-of-month overflow rolls into the next month. -/
def addMonths (date : Int) (months : Int) : Int :=
  let c := civilFromDays date
  let mi := (c.2.1 - 1) + months
  daysFromCivil (c.1 + Int.fdiv mi 12) (Int.emod mi 12 + 1) c.2.2

/-- `calculateNextDueDate` from `utils/billingUtils.ts`: switch on the cycle
with a default branch of one month. -/
def calculateNextDueDate (startDate : Int) (cycle : String) : Int :=
  if cycle == "monthly" then addMonths startDate 1
  else if cycle == "quarterly" then addMonths startDate 3
  else if cycle == "yearly" then addMonths startDate 12
  else addMonths startDate 1

/-! ## Data model (models/Website.ts) -/

namespace BillingStatus

def PENDING : String := "PENDING"

def ACTIVE : String := "ACTIVE"

def OVERDUE : String := "OVERDUE"

def SUSPENDED : String := "SUSPENDED"

/-- `Object.values(BillingStatus)`. -/
def values : List String := [PENDING, ACTIVE, OVERDUE, SUSPENDED]

end BillingStatus

/-- The admissible billing cycles of the schema enum. -/
def cycleValues : List String := ["monthly", "quarterly", "yearly"]

/-- One entry of `billing.paymentHistory`. -/
structure Payment where
  amount : Int
  date : Int
  method : Option String
  transactionId : Option String
deriving DecidableEq, Repr

/-- The embedded billing sub-document (`IBilling`). `status` and
`billingCycle` are strings as stored in Mongo; the schema's enum
constraints are checked by `billingSchemaValid` at save time. -/
structure Billing where
  status : String
  plan : Option String
  price : Option Int
  billingCycle : String
  activatedAt : Option Int
  dueAt : Option Int
  lastPaymentAt : Option Int
  graceEndsAt : Option Int
  suspendedAt : Option Int
  paymentHistory : Option (List Payment)
deriving DecidableEq, Repr

/-- The parts of a `Website` document the billing claims touch. -/
structure Website where
  id : Nat
  requestId : Nat
  name : String
  billing : Billing
deriving DecidableEq, Repr

/-- The schema validation mongoose runs on `save()` for the billing
sub-document: `status` and `billingCycle` must lie in their enums and
`price` respects `min: 0`. -/
def billingSchemaValid (b : Billing) : Bool :=
  BillingStatus.values.contains b.status &&
  cycleValues.contains b.billingCycle &&
  (match b.price with
   | some p => decide (0 ≤ p)
   | none => true)

/-! ## initializeBilling (utils/billingUtils.ts) -/

/-- The `Partial<IBilling>` returned by `initializeBilling`; `now` is the
value of the ambient clock (`new Date()`) at the call. -/
structure InitBilling where
  status : String
  plan : Option String
  price : Option Int
  billingCycle : String
  activatedAt : Int
  dueAt : Int
  graceEndsAt : Int
deriving DecidableEq, Repr

/-- `initializeBilling` from `utils/billingUtils.ts`: 5-day grace window,
grace deadline doubling as the first due date. -/
def initializeBilling (plan : Option String) (price : Option Int)
    (cycle : String := "monthly") (now : Int) : InitBilling :=
  let graceEndsAt := addDays now 5
  { status := BillingStatus.PENDING
    plan := plan
    price := price
    billingCycle := cycle
    activatedAt := now
    dueAt := graceEndsAt
    graceEndsAt := graceEndsAt }

/-! ## The reconciliation run (jobs/billingCron.ts, updateBillingStatuses) -/

/-- Per-website behaviour of the external collaborators during one run:
whether `WebsiteRequest.findById` yields the linked document, whether the
email send resolves, and whether `website.save()` resolves.
`requestFound = false` covers both a lookup that resolves without a
document and a lookup that throws: both are caught by the inner catch of
the email block and behave identically (no send is attempted, nothing is
counted, processing continues). -/
structure WebsiteEnv where
  requestFound : Bool
  emailOk : Bool
  saveOk : Bool
deriving DecidableEq, Repr

inductive EmailKind where
  | suspension
  | overdue
deriving DecidableEq, Repr

/-- Observable I/O events of a run, in program order. -/
inductive Event where
  | emailAttempt (websiteId : Nat) (kind : EmailKind) (ok : Bool)
  | saveAttempt (websiteId : Nat) (ok : Bool)
deriving DecidableEq, Repr

def Event.websiteId : Event → Nat
  | .emailAttempt i _ _ => i
  | .saveAttempt i _ => i

def Event.isEmail : Event → Bool
  | .emailAttempt _ _ _ => true
  | .saveAttempt _ _ => false

def Event.isSuccessfulSave : Event → Bool
  | .emailAttempt _ _ _ => false
  | .saveAttempt _ ok => ok

/-- `billing.graceEndsAt && billing.graceEndsAt < now` (a missing date is
falsy; Mongo's `$lt` likewise skips documents without the field). -/
def graceExpired (b : Billing) (now : Int) : Bool :=
  match b.graceEndsAt with
  | some g => decide (g < now)
  | none => false

/-- `billing.dueAt && billing.dueAt < now`. -/
def dueExpired (b : Billing) (now : Int) : Bool :=
  match b.dueAt with
  | some d => decide (d < now)
  | none => false

/-- Guard of the PENDING → SUSPENDED block of the loop body. -/
def firesSuspension (now : Int) (w : Website) : Bool :=
  w.billing.status == BillingStatus.PENDING && graceExpired w.billing now

/-- Guard of the ACTIVE → OVERDUE block of the loop body. -/
def firesOverdue (now : Int) (w : Website) : Bool :=
  w.billing.status == BillingStatus.ACTIVE && dueExpired w.billing now

/-- The `$or` filter of the candidate query in `updateBillingStatuses`. -/
def isCandidate (now : Int) (w : Website) : Bool :=
  firesSuspension now w || firesOverdue now w

/-- The in-memory mutation of the PENDING → SUSPENDED block. -/
def suspendBilling (b : Billing) (now : Int) : Billing :=
  { b with status := BillingStatus.SUSPENDED, suspendedAt := some now }

/-- The in-memory mutation of the ACTIVE → OVERDUE block. -/
def overdueBilling (b : Billing) : Billing :=
  { b with status := BillingStatus.OVERDUE }

/-- The inner email try-block: `sendBilling…Email` is called only when
`WebsiteRequest.findById` found the linked request; a lookup or send
failure is caught and only logged. -/
def emailEvents (env : WebsiteEnv) (id : Nat) (k : EmailKind) : List Event :=
  if env.requestFound then [Event.emailAttempt id k env.emailOk] else []

/-- The summary accumulated by `updateBillingStatuses`. -/
structure RunSummary where
  pendingToSuspended : Nat
  activeToOverdue : Nat
  errors : Nat
deriving DecidableEq, Repr

def RunSummary.zero : RunSummary := ⟨0, 0, 0⟩

def RunSummary.add (a b : RunSummary) : RunSummary :=
  ⟨a.pendingToSuspended + b.pendingToSuspended,
   a.activeToOverdue + b.activeToOverdue,
   a.errors + b.errors⟩

/-- The loop body of `updateBillingStatuses` for one fetched website:
run the two transition blocks on the in-memory document (each increments
its counter and attempts its email inside the block), then
`if (statusChanged) await website.save()`; a save failure is caught by the
per-website catch and counted in `errors`, leaving the stored document
unchanged. Returns the stored document, the summary delta and the I/O
events in program order. -/
def processWebsite (env : WebsiteEnv) (now : Int) (w : Website) :
    Website × RunSummary × List Event :=
  let fire1 := w.billing.status == BillingStatus.PENDING && graceExpired w.billing now
  let b1 := if fire1 then suspendBilling w.billing now else w.billing
  let ev1 := if fire1 then emailEvents env w.id EmailKind.suspension else []
  let fire2 := b1.status == BillingStatus.ACTIVE && dueExpired b1 now
  let b2 := if fire2 then overdueBilling b1 else b1
  let ev2 := if fire2 then emailEvents env w.id EmailKind.overdue else []
  if fire1 || fire2 then
    (if env.saveOk then { w with billing := b2 } else w,
     ⟨cond fire1 1 0, cond fire2 1 0, cond env.saveOk 0 1⟩,
     ev1 ++ ev2 ++ [Event.saveAttempt w.id env.saveOk])
  else
    (w, RunSummary.zero, [])

/-- One website of the store during a run: candidates (the documents the
query returned) go through the loop body, the rest are untouched. -/
def runSite (env : Nat → WebsiteEnv) (now : Int) (w : Website) :
    Website × RunSummary × List Event :=
  if isCandidate now w then processWebsite (env w.id) now w
  else (w, RunSummary.zero, [])

/-- The whole loop over the store, in order. -/
def runSites (env : Nat → WebsiteEnv) (now : Int) :
    List Website → List Website × RunSummary × List Event
  | [] => ([], RunSummary.zero, [])
  | w :: ws =>
    let r := runSite env now w
    let rest := runSites env now ws
    (r.1 :: rest.1, r.2.1.add rest.2.1, r.2.2 ++ rest.2.2)

/-- The candidate query of `updateBillingStatuses`. -/
def findCandidates (now : Int) (sites : List Website) : List Website :=
  sites.filter (isCandidate now)

/-- `updateBillingStatuses`: the initial fetch is the only operation whose
failure escapes the per-website catch; it aborts the run and rethrows. -/
def updateBillingStatuses (fetchOk : Bool) (env : Nat → WebsiteEnv) (now : Int)
    (sites : List Website) :
    Except String (List Website × RunSummary × List Event) :=
  if fetchOk then Except.ok (runSites env now sites)
  else Except.error "Failed to update billing statuses"

/-! ## Admin operations (controllers/admin.website.controller.ts) -/

/-- Outcome of `updateBilling` as seen by the HTTP client. -/
inductive AdminResponse where
  | ok (b : Billing)
  | serverError
deriving DecidableEq, Repr

/-- Request body of `PATCH …/billing`. -/
structure UpdateBillingBody where
  plan : Option String
  price : Option Int
  billingCycle : Option String
  status : Option String
deriving DecidableEq, Repr

/-- `updateBilling`: each provided field is assigned onto the in-memory
document (`plan` lower-cased and trimmed, `status` only when it is a member
of `Object.values(BillingStatus)`, `billingCycle` unchecked), then
`website.save()` runs schema validation; a validation failure is caught and
answered with a 500, leaving the stored document unchanged.  Returns the
HTTP outcome and the stored billing document after the request. -/
def updateBilling (body : UpdateBillingBody) (b : Billing) : AdminResponse × Billing :=
  let b1 := match body.plan with
    | some p => { b with plan := some p.toLower.trim }
    | none => b
  let b2 := match body.price with
    | some pr => { b1 with price := some pr }
    | none => b1
  let b3 := match body.billingCycle with
    | some c => { b2 with billingCycle := c }
    | none => b2
  let b4 := match body.status with
    | some s => if BillingStatus.values.contains s then { b3 with status := s } else b3
    | none => b3
  if billingSchemaValid b4 then (AdminResponse.ok b4, b4)
  else (AdminResponse.serverError, b)

/-- Outcome of `recordPayment` as seen by the HTTP client. -/
inductive PaymentResponse where
  | ok (b : Billing)
  | invalidAmount
deriving DecidableEq, Repr

/-- `recordPayment`: `if (!amount || amount <= 0)` reject with 400 before
touching the document; otherwise append to `paymentHistory` (initialising
it when absent), set `status = ACTIVE`, `lastPaymentAt = now`,
`dueAt = calculateNextDueDate(now, billingCycle)`, and save.  Returns the
HTTP outcome and the stored billing document after the request. -/
def recordPayment (b : Billing) (amount : Int) (method transactionId : Option String)
    (now : Int) : PaymentResponse × Billing :=
  if amount ≤ 0 then (PaymentResponse.invalidAmount, b)
  else
    let hist := b.paymentHistory.getD []
    let b2 : Billing :=
      { b with
        paymentHistory := some (hist ++ [⟨amount, now, method, transactionId⟩])
        status := BillingStatus.ACTIVE
        lastPaymentAt := some now
        dueAt := some (calculateNextDueDate now b.billingCycle) }
    (PaymentResponse.ok b2, b2)

/-- Predicate picking out suspension-notification attempts for one website. -/
def isSuspensionEmailFor (id : Nat) : Event → Bool
  | .emailAttempt i EmailKind.suspension _ => i == id
  | _ => false

/-- The claim that within a run's event trace every notification attempt for
a record is preceded by a successful persist of that record. -/
def notifiedOnlyAfterPersist (evs : List Event) : Bool :=
  (List.range evs.length).all fun i =>
    match evs[i]? with
    | some e =>
      !e.isEmail ||
        (List.range i).any fun j =>
          match evs[j]? with
          | some e2 => e2.isSuccessfulSave && (e2.websiteId == e.websiteId)
          | none => false
    | none => true

/-! ## Concrete fixtures used by witnesses and counterexamples -/

/-- A schema-valid billing record awaiting its first payment,
grace window ending at day 5. -/
def demoPendingBilling : Billing :=
  { status := "PENDING", plan := none, price := none, billingCycle := "monthly"
    activatedAt := some 0, dueAt := some 5, lastPaymentAt := none
    graceEndsAt := some 5, suspendedAt := none, paymentHistory := some [] }

/-- A schema-valid active billing record, due at day 40. -/
def demoActiveBilling : Billing :=
  { status := "ACTIVE", plan := some "basic", price := some 100, billingCycle := "monthly"
    activatedAt := some 0, dueAt := some 40, lastPaymentAt := some 10
    graceEndsAt := some 5, suspendedAt := none, paymentHistory := some [] }

/-- An overdue billing record. -/
def demoOverdueBilling : Billing :=
  { demoActiveBilling with status := "OVERDUE" }

def demoSite : Website :=
  { id := 1, requestId := 1, name := "w1", billing := demoPendingBilling }

def demoActiveSite : Website :=
  { id := 2, requestId := 2, name := "w2", billing := demoActiveBilling }

def demoOverdueSite : Website :=
  { id := 3, requestId := 3, name := "w3", billing := demoOverdueBilling }

/-- Environment in which every lookup, email and save succeeds. -/
def envOk : Nat → WebsiteEnv := fun _ => ⟨true, true, true⟩

/-- A family of expired-grace PENDING candidates. -/
def demoC (n : Nat) : Website :=
  { id := n, requestId := n, name := "c", billing := demoPendingBilling }

/-- Ten candidates, as in the spec's partial-failure scenario. -/
def demo10 : List Website :=
  [demoC 1, demoC 2, demoC 3, demoC 4, demoC 5,
   demoC 6, demoC 7, demoC 8, demoC 9, demoC 10]

/-- Environment in which persisting candidate number 5 fails. -/
def env10 : Nat → WebsiteEnv := fun id => ⟨true, true, !(id == 5)⟩

/-! ## Characterisation lemmas for the loop body -/

theorem firesSuspension_not_overdue {now : Int} {w : Website}
    (h : firesSuspension now w = true) : firesOverdue now w = false := by
  unfold firesSuspension at h
  unfold firesOverdue
  have hs : w.billing.status = BillingStatus.PENDING := by
    have := (Bool.and_eq_true _ _).mp h
    exact eq_of_beq this.1
  simp [hs, BillingStatus.PENDING, BillingStatus.ACTIVE]

/-- The loop body, case-analysed: at most one transition block fires, and
the trace is the block's email attempts followed by the save attempt. -/
theorem processWebsite_eq (env : WebsiteEnv) (now : Int) (w : Website) :
    processWebsite env now w =
      if firesSuspension now w then
        (if env.saveOk then { w with billing := suspendBilling w.billing now } else w,
         ⟨1, 0, cond env.saveOk 0 1⟩,
         emailEvents env w.id EmailKind.suspension ++ [Event.saveAttempt w.id env.saveOk])
      else if firesOverdue now w then
        (if env.saveOk then { w with billing := overdueBilling w.billing } else w,
         ⟨0, 1, cond env.saveOk 0 1⟩,
         emailEvents env w.id EmailKind.overdue ++ [Event.saveAttempt w.id env.saveOk])
      else (w, RunSummary.zero, []) := by
  cases h1 : firesSuspension now w with
  | true =>
    have h1' : (w.billing.status == BillingStatus.PENDING && graceExpired w.billing now) = true := h1
    have hfire2 : ((suspendBilling w.billing now).status == BillingStatus.ACTIVE
        && dueExpired (suspendBilling w.billing now) now) = false := by
      simp [suspendBilling, BillingStatus.SUSPENDED, BillingStatus.ACTIVE]
    simp [processWebsite, h1', hfire2]
  | false =>
    have h1' : (w.billing.status == BillingStatus.PENDING && graceExpired w.billing now) = false := h1
    cases h2 : firesOverdue now w with
    | true =>
      have h2' : (w.billing.status == BillingStatus.ACTIVE && dueExpired w.billing now) = true := h2
      simp [processWebsite, h1', h2']
    | false =>
      have h2' : (w.billing.status == BillingStatus.ACTIVE && dueExpired w.billing now) = false := h2
      simp [processWebsite, h1', h2']

theorem runSites_cons (env : Nat → WebsiteEnv) (now : Int) (w : Website) (ws : List Website) :
    runSites env now (w :: ws) =
      ((runSite env now w).1 :: (runSites env now ws).1,
       (runSite env now w).2.1.add (runSites env now ws).2.1,
       (runSite env now w).2.2 ++ (runSites env now ws).2.2) := rfl

/-- The stored state after a run is the per-website outcome, independently
for every position of the store. -/
theorem runSites_state (env : Nat → WebsiteEnv) (now : Int) (sites : List Website) :
    (runSites env now sites).1 = sites.map (fun w => (runSite env now w).1) := by
  induction sites with
  | nil => rfl
  | cons w ws ih => simp [runSites_cons, ih]

theorem runSites_getElem? (env : Nat → WebsiteEnv) (now : Int) (sites : List Website) (i : Nat) :
    (runSites env now sites).1[i]? = (sites[i]?).map (fun w => (runSite env now w).1) := by
  rw [runSites_state, List.getElem?_map]

/-- Summary delta of one website, in terms of the block guards. -/
theorem runSite_summary (env : Nat → WebsiteEnv) (now : Int) (w : Website) :
    (runSite env now w).2.1 =
      ⟨cond (firesSuspension now w) 1 0, cond (firesOverdue now w) 1 0,
       cond (isCandidate now w && !(env w.id).saveOk) 1 0⟩ := by
  unfold runSite
  cases h1 : firesSuspension now w with
  | true =>
    have hc : isCandidate now w = true := by simp [isCandidate, h1]
    rw [if_pos hc, processWebsite_eq, if_pos h1]
    rw [firesSuspension_not_overdue h1]
    cases hs : (env w.id).saveOk <;> simp [hc, hs]
  | false =>
    cases h2 : firesOverdue now w with
    | true =>
      have hc : isCandidate now w = true := by simp [isCandidate, h1, h2]
      rw [if_pos hc, processWebsite_eq, h1, h2]
      cases hs : (env w.id).saveOk <;> simp [hc, hs]
    | false =>
      have hc : isCandidate now w = false := by simp [isCandidate, h1, h2]
      rw [hc]
      simp [h1, h2, hc, RunSummary.zero]

theorem runSites_pendingToSuspended (env : Nat → WebsiteEnv) (now : Int) (sites : List Website) :
    (runSites env now sites).2.1.pendingToSuspended = sites.countP (firesSuspension now) := by
  induction sites with
  | nil => rfl
  | cons w ws ih =>
    rw [runSites_cons, List.countP_cons]
    show ((runSite env now w).2.1.add (runSites env now ws).2.1).pendingToSuspended = _
    rw [RunSummary.add, runSite_summary]
    cases h : firesSuspension now w <;> simp [ih, Nat.add_comm]

theorem runSites_activeToOverdue (env : Nat → WebsiteEnv) (now : Int) (sites : List Website) :
    (runSites env now sites).2.1.activeToOverdue = sites.countP (firesOverdue now) := by
  induction sites with
  | nil => rfl
  | cons w ws ih =>
    rw [runSites_cons, List.countP_cons]
    show ((runSite env now w).2.1.add (runSites env now ws).2.1).activeToOverdue = _
    rw [RunSummary.add, runSite_summary]
    cases h : firesOverdue now w <;> simp [ih, Nat.add_comm]

theorem runSites_errors (env : Nat → WebsiteEnv) (now : Int) (sites : List Website) :
    (runSites env now sites).2.1.errors =
      sites.countP (fun w => isCandidate now w && !(env w.id).saveOk) := by
  induction sites with
  | nil => rfl
  | cons w ws ih =>
    rw [runSites_cons, List.countP_cons]
    show ((runSite env now w).2.1.add (runSites env now ws).2.1).errors = _
    rw [RunSummary.add, runSite_summary]
    cases h : (isCandidate now w && !(env w.id).saveOk) <;> simp [h, ih, Nat.add_comm]

/-- Every event a website's processing emits carries that website's id. -/
theorem runSite_events_websiteId (env : Nat → WebsiteEnv) (now : Int) (w : Website) :
    ∀ e ∈ (runSite env now w).2.2, e.websiteId = w.id := by
  intro e he
  unfold runSite at he
  by_cases hc : isCandidate now w = true
  · rw [if_pos hc, processWebsite_eq] at he
    by_cases h1 : firesSuspension now w = true
    · rw [if_pos h1] at he
      simp only [List.mem_append, List.mem_singleton] at he
      rcases he with he | he
      · unfold emailEvents at he
        cases hrf : (env w.id).requestFound <;> rw [hrf] at he <;> simp at he
        rw [he]; rfl
      · rw [he]; rfl
    · rw [if_neg h1] at he
      by_cases h2 : firesOverdue now w = true
      · rw [if_pos h2] at he
        simp only [List.mem_append, List.mem_singleton] at he
        rcases he with he | he
        · unfold emailEvents at he
          cases hrf : (env w.id).requestFound <;> rw [hrf] at he <;> simp at he
          rw [he]; rfl
        · rw [he]; rfl
      · rw [if_neg h2] at he
        simp at he
  · rw [if_neg hc] at he
    simp at he

theorem isSuspensionEmailFor_websiteId {n : Nat} {e : Event}
    (h : isSuspensionEmailFor n e = true) : e.websiteId = n := by
  cases e with
  | emailAttempt i k ok =>
    cases k with
    | suspension =>
      simp only [isSuspensionEmailFor, beq_iff_eq] at h
      simpa [Event.websiteId] using h
    | overdue => simp [isSuspensionEmailFor] at h
  | saveAttempt i ok => simp [isSuspensionEmailFor] at h

/-- A website other than `n` contributes no suspension-email attempt for `n`. -/
theorem runSite_suspEmail_count_ne (env : Nat → WebsiteEnv) (now : Int) (w : Website)
    (n : Nat) (hne : w.id ≠ n) :
    (runSite env now w).2.2.countP (isSuspensionEmailFor n) = 0 := by
  rw [List.countP_eq_zero]
  intro e he
  intro hcontra
  exact hne ((runSite_events_websiteId env now w e he) ▸ isSuspensionEmailFor_websiteId hcontra)

theorem runSites_suspEmail_count_zero (env : Nat → WebsiteEnv) (now : Int)
    (sites : List Website) (n : Nat) (h : ∀ y ∈ sites, y.id ≠ n) :
    (runSites env now sites).2.2.countP (isSuspensionEmailFor n) = 0 := by
  induction sites with
  | nil => rfl
  | cons w ws ih =>
    rw [runSites_cons]
    show ((runSite env now w).2.2 ++ (runSites env now ws).2.2).countP _ = 0
    rw [List.countP_append, runSite_suspEmail_count_ne env now w n (h w (by simp)),
      ih (fun y hy => h y (by simp [hy]))]

/-- A PENDING candidate whose linked request is found produces exactly one
suspension-email attempt. -/
theorem runSite_suspEmail_count_self (env : Nat → WebsiteEnv) (now : Int) (w : Website)
    (h1 : firesSuspension now w = true) (hrf : (env w.id).requestFound = true) :
    (runSite env now w).2.2.countP (isSuspensionEmailFor w.id) = 1 := by
  have hc : isCandidate now w = true := by simp [isCandidate, h1]
  unfold runSite
  rw [if_pos hc, processWebsite_eq, if_pos h1]
  unfold emailEvents
  rw [hrf]
  simp [List.countP_cons, List.countP_nil, isSuspensionEmailFor]

theorem emailEvents_isEmail (env : WebsiteEnv) (id : Nat) (k : EmailKind) :
    ∀ ev ∈ emailEvents env id k, ev.isEmail = true := by
  intro ev hev
  unfold emailEvents at hev
  cases hrf : env.requestFound <;> rw [hrf] at hev <;> simp at hev
  rw [hev]; rfl

/-- Stored outcome of a PENDING candidate whose save succeeds. -/
theorem runSite_state_suspension (env : Nat → WebsiteEnv) (now : Int) (w : Website)
    (h1 : firesSuspension now w = true) (hsave : (env w.id).saveOk = true) :
    (runSite env now w).1 = { w with billing := suspendBilling w.billing now } := by
  have hc : isCandidate now w = true := by simp [isCandidate, h1]
  unfold runSite
  rw [if_pos hc, processWebsite_eq, if_pos h1]
  show (if (env w.id).saveOk = true then _ else w) = _
  rw [if_pos hsave]

/-- Stored outcome of an ACTIVE candidate whose save succeeds. -/
theorem runSite_state_overdue (env : Nat → WebsiteEnv) (now : Int) (w : Website)
    (h1 : firesSuspension now w = false) (h2 : firesOverdue now w = true)
    (hsave : (env w.id).saveOk = true) :
    (runSite env now w).1 = { w with billing := overdueBilling w.billing } := by
  have hc : isCandidate now w = true := by simp [isCandidate, h2]
  unfold runSite
  rw [if_pos hc, processWebsite_eq]
  simp [h1, h2, hsave]

/-- After a successfully persisted pass over one website it is no longer a
candidate at the same instant. -/
theorem runSite_state_not_candidate (env : Nat → WebsiteEnv) (now : Int) (w : Website)
    (hsave : (env w.id).saveOk = true) :
    isCandidate now ((runSite env now w).1) = false := by
  cases h1 : firesSuspension now w with
  | true =>
    rw [runSite_state_suspension env now w h1 hsave]
    simp [isCandidate, firesSuspension, firesOverdue, suspendBilling,
      BillingStatus.SUSPENDED, BillingStatus.PENDING, BillingStatus.ACTIVE]
  | false =>
    cases h2 : firesOverdue now w with
    | true =>
      rw [runSite_state_overdue env now w h1 h2 hsave]
      simp [isCandidate, firesSuspension, firesOverdue, overdueBilling,
        BillingStatus.OVERDUE, BillingStatus.PENDING, BillingStatus.ACTIVE]
    | false =>
      have hc : isCandidate now w = false := by simp [isCandidate, h1, h2]
      have hw : (runSite env now w).1 = w := by
        unfold runSite
        rw [if_neg (by simp [hc])]
      rw [hw]
      exact hc

theorem runSites_result_not_candidate (env : Nat → WebsiteEnv) (now : Int)
    (sites : List Website) (hsave : ∀ id, (env id).saveOk = true) :
    ∀ w' ∈ (runSites env now sites).1, isCandidate now w' = false := by
  intro w' hw
  rw [runSites_state] at hw
  obtain ⟨w, _, rfl⟩ := List.mem_map.mp hw
  exact runSite_state_not_candidate env now w (hsave w.id)

/-- A pass over a store with no candidates changes nothing, counts nothing,
and emits nothing. -/
theorem runSites_of_no_candidates (env : Nat → WebsiteEnv) (now : Int)
    (sites : List Website) (h : ∀ w ∈ sites, isCandidate now w = false) :
    runSites env now sites = (sites, RunSummary.zero, []) := by
  induction sites with
  | nil => rfl
  | cons w ws ih =>
    rw [runSites_cons, ih (fun y hy => h y (List.mem_cons_of_mem _ hy))]
    have hw : runSite env now w = (w, RunSummary.zero, []) := by
      unfold runSite
      rw [if_neg (by simp [h w (List.mem_cons_self _ _)])]
    rw [hw]
    simp [RunSummary.add, RunSummary.zero]

/-- Exactly one suspension-email attempt appears in the whole run's trace
for a PENDING candidate with a found request, when website ids are unique. -/
theorem runSites_suspEmail_count_one (env : Nat → WebsiteEnv) (now : Int)
    (sites : List Website) (i : Nat) (w : Website)
    (hi : sites[i]? = some w) (hnd : (sites.map Website.id).Nodup)
    (h1 : firesSuspension now w = true) (hreq : (env w.id).requestFound = true) :
    (runSites env now sites).2.2.countP (isSuspensionEmailFor w.id) = 1 := by
  induction sites generalizing i with
  | nil => simp at hi
  | cons x xs ih =>
    rw [runSites_cons]
    show ((runSite env now x).2.2 ++ (runSites env now xs).2.2).countP _ = 1
    rw [List.countP_append]
    rw [List.map_cons, List.nodup_cons] at hnd
    cases i with
    | zero =>
      rw [List.getElem?_cons_zero] at hi
      obtain rfl : x = w := by injection hi
      rw [runSite_suspEmail_count_self env now x h1 hreq]
      have hz : (runSites env now xs).2.2.countP (isSuspensionEmailFor x.id) = 0 := by
        apply runSites_suspEmail_count_zero
        intro y hy hcon
        exact hnd.1 (hcon ▸ List.mem_map_of_mem Website.id hy)
      rw [hz]
    | succ n =>
      rw [List.getElem?_cons_succ] at hi
      have hxw : x.id ≠ w.id := by
        intro hcon
        apply hnd.1
        have hwmem : w ∈ xs := by
          have := List.getElem?_eq_some.mp hi
          obtain ⟨hlt, hget⟩ := this
          exact hget ▸ List.getElem_mem _
        rw [hcon]
        exact List.mem_map_of_mem Website.id hwmem
      rw [runSite_suspEmail_count_ne env now x w.id hxw, ih n hi hnd.2]

/-! ## Claim theorems -/

/-- C1: for every website whose billing record has status PENDING and
`graceEndsAt < now`, after one reconciliation run (`updateBillingStatuses`
at time `now`, here the per-store pass `runSites`) the stored record's
status is SUSPENDED, its `suspendedAt` equals the run's `now`, and exactly
one suspension notification send was attempted for that record (the
environment resolving the linked request and the save, ids unique). -/
theorem pending_expired_grace_suspended_and_notified_once
    (env : Nat → WebsiteEnv) (now : Int) (sites : List Website) (i : Nat) (w : Website)
    (hi : sites[i]? = some w)
    (hnd : (sites.map Website.id).Nodup)
    (hp : w.billing.status = BillingStatus.PENDING)
    (hg : ∃ g, w.billing.graceEndsAt = some g ∧ g < now)
    (hsave : (env w.id).saveOk = true)
    (hreq : (env w.id).requestFound = true) :
    (runSites env now sites).1[i]? = some { w with billing :=
      { w.billing with status := BillingStatus.SUSPENDED, suspendedAt := some now } } ∧
    (runSites env now sites).2.2.countP (isSuspensionEmailFor w.id) = 1 := by
  have h1 : firesSuspension now w = true := by
    obtain ⟨g, hg1, hg2⟩ := hg
    simp [firesSuspension, hp, graceExpired, hg1, hg2]
  constructor
  · rw [runSites_getElem?, hi]
    show some ((runSite env now w).1) = _
    rw [runSite_state_suspension env now w h1 hsave]
    rfl
  · exact runSites_suspEmail_count_one env now sites i w hi hnd h1 hreq

theorem pending_expired_grace_suspended_and_notified_once_witness :
    (runSites envOk 100 [demoSite]).1[0]? = some { demoSite with billing :=
      { demoSite.billing with
        status := BillingStatus.SUSPENDED
        suspendedAt := some 100 } } ∧
    (runSites envOk 100 [demoSite]).2.2.countP (isSuspensionEmailFor demoSite.id) = 1 :=
  pending_expired_grace_suspended_and_notified_once envOk 100 [demoSite] 0 demoSite
    rfl (by decide) rfl ⟨5, rfl, by decide⟩ rfl rfl

/-- C2: for every website whose billing record has status ACTIVE and
`dueAt < now`, after one reconciliation run the stored record's status is
OVERDUE and every other field of the record (plan, price, billingCycle,
activatedAt, dueAt, graceEndsAt, lastPaymentAt, suspendedAt,
paymentHistory) is unchanged, captured by a single-field record update. -/
theorem active_past_due_overdue_frame
    (env : Nat → WebsiteEnv) (now : Int) (sites : List Website) (i : Nat) (w : Website)
    (hi : sites[i]? = some w)
    (ha : w.billing.status = BillingStatus.ACTIVE)
    (hd : ∃ d, w.billing.dueAt = some d ∧ d < now)
    (hsave : (env w.id).saveOk = true) :
    (runSites env now sites).1[i]? =
      some { w with billing := { w.billing with status := BillingStatus.OVERDUE } } := by
  have h2 : firesOverdue now w = true := by
    obtain ⟨d, hd1, hd2⟩ := hd
    simp [firesOverdue, ha, dueExpired, hd1, hd2]
  have h1 : firesSuspension now w = false := by
    simp [firesSuspension, ha, BillingStatus.ACTIVE, BillingStatus.PENDING]
  rw [runSites_getElem?, hi]
  show some ((runSite env now w).1) = _
  rw [runSite_state_overdue env now w h1 h2 hsave]
  rfl

theorem active_past_due_overdue_frame_witness :
    (runSites envOk 100 [demoActiveSite]).1[0]? =
      some { demoActiveSite with billing :=
        { demoActiveSite.billing with status := BillingStatus.OVERDUE } } :=
  active_past_due_overdue_frame envOk 100 [demoActiveSite] 0 demoActiveSite
    rfl rfl ⟨40, rfl, by decide⟩ rfl

/-- C3: a second reconciliation pass at the same `now`, with no intervening
payments or admin edits, is a no-op when the first pass persisted all its
candidates: the candidate filter matches nothing the first pass produced,
so the second pass (under any environment) changes no record, counts
nothing and attempts no notification. -/
theorem reconciliation_idempotent
    (env env2 : Nat → WebsiteEnv) (now : Int) (sites : List Website)
    (hsave : ∀ id, (env id).saveOk = true) :
    findCandidates now (runSites env now sites).1 = [] ∧
    runSites env2 now (runSites env now sites).1 =
      ((runSites env now sites).1, RunSummary.zero, []) := by
  have hnc : ∀ w' ∈ (runSites env now sites).1, isCandidate now w' = false :=
    runSites_result_not_candidate env now sites hsave
  refine ⟨?_, runSites_of_no_candidates env2 now _ hnc⟩
  unfold findCandidates
  rw [List.filter_eq_nil_iff]
  intro a ha
  simp [hnc a ha]

theorem reconciliation_idempotent_witness :
    findCandidates 100 (runSites envOk 100 [demoSite]).1 = [] ∧
    runSites envOk 100 (runSites envOk 100 [demoSite]).1 =
      ((runSites envOk 100 [demoSite]).1, RunSummary.zero, []) :=
  reconciliation_idempotent envOk envOk 100 [demoSite] (fun _ => rfl)

/-- C4: `recordPayment` rejects any amount ≤ 0 with a validation error,
leaving the billing record unchanged; for every amount > 0 and every prior
status it appends exactly one entry to `paymentHistory`, sets
`lastPaymentAt` to `now`, sets status to ACTIVE, and sets `dueAt` to
`calculateNextDueDate now billingCycle` (one billing-cycle interval after
the payment time), leaving the remaining fields unchanged. -/
theorem recordPayment_spec (b : Billing) (amount : Int)
    (method transactionId : Option String) (now : Int) :
    (amount ≤ 0 →
      recordPayment b amount method transactionId now = (PaymentResponse.invalidAmount, b)) ∧
    (0 < amount →
      ∃ b2, recordPayment b amount method transactionId now = (PaymentResponse.ok b2, b2) ∧
        b2.paymentHistory =
          some (b.paymentHistory.getD [] ++ [⟨amount, now, method, transactionId⟩]) ∧
        b2.lastPaymentAt = some now ∧
        b2.status = BillingStatus.ACTIVE ∧
        b2.dueAt = some (calculateNextDueDate now b.billingCycle) ∧
        b2.plan = b.plan ∧ b2.price = b.price ∧ b2.billingCycle = b.billingCycle ∧
        b2.activatedAt = b.activatedAt ∧ b2.graceEndsAt = b.graceEndsAt ∧
        b2.suspendedAt = b.suspendedAt) := by
  constructor
  · intro h
    unfold recordPayment
    rw [if_pos h]
  · intro h
    unfold recordPayment
    rw [if_neg (not_le.mpr h)]
    exact ⟨_, rfl, rfl, rfl, rfl, rfl, rfl, rfl, rfl, rfl, rfl, rfl⟩

theorem recordPayment_spec_witness :
    (recordPayment demoOverdueBilling (-7) none none 30 =
      (PaymentResponse.invalidAmount, demoOverdueBilling)) ∧
    (∃ b2, recordPayment demoOverdueBilling 50 (some "card") (some "tx9") 30 =
        (PaymentResponse.ok b2, b2) ∧
      b2.paymentHistory = some (demoOverdueBilling.paymentHistory.getD [] ++
        [⟨50, 30, some "card", some "tx9"⟩]) ∧
      b2.lastPaymentAt = some 30 ∧
      b2.status = BillingStatus.ACTIVE ∧
      b2.dueAt = some (calculateNextDueDate 30 demoOverdueBilling.billingCycle) ∧
      b2.plan = demoOverdueBilling.plan ∧ b2.price = demoOverdueBilling.price ∧
      b2.billingCycle = demoOverdueBilling.billingCycle ∧
      b2.activatedAt = demoOverdueBilling.activatedAt ∧
      b2.graceEndsAt = demoOverdueBilling.graceEndsAt ∧
      b2.suspendedAt = demoOverdueBilling.suspendedAt) :=
  ⟨(recordPayment_spec demoOverdueBilling (-7) none none 30).1 (by decide),
   (recordPayment_spec demoOverdueBilling 50 (some "card") (some "tx9") 30).2 (by decide)⟩

/-- C6: billing records in status OVERDUE or SUSPENDED are fixpoints of
automated reconciliation: for every `now`, such a record is not a
candidate, its per-website pass changes nothing, counts nothing and emits
nothing, and after a whole run the stored document is unchanged. -/
theorem overdue_suspended_fixpoints
    (env : Nat → WebsiteEnv) (now : Int) (sites : List Website) (i : Nat) (w : Website)
    (hi : sites[i]? = some w)
    (hs : w.billing.status = BillingStatus.OVERDUE ∨
      w.billing.status = BillingStatus.SUSPENDED) :
    isCandidate now w = false ∧
    runSite env now w = (w, RunSummary.zero, []) ∧
    (runSites env now sites).1[i]? = some w := by
  have hc : isCandidate now w = false := by
    rcases hs with h | h <;>
      simp [isCandidate, firesSuspension, firesOverdue, h,
        BillingStatus.OVERDUE, BillingStatus.SUSPENDED,
        BillingStatus.PENDING, BillingStatus.ACTIVE]
  have hr : runSite env now w = (w, RunSummary.zero, []) := by
    unfold runSite
    rw [if_neg (by simp [hc])]
  refine ⟨hc, hr, ?_⟩
  rw [runSites_getElem?, hi]
  show some ((runSite env now w).1) = _
  rw [hr]

theorem overdue_suspended_fixpoints_witness :
    isCandidate 100000 demoOverdueSite = false ∧
    runSite envOk 100000 demoOverdueSite = (demoOverdueSite, RunSummary.zero, []) ∧
    (runSites envOk 100000 [demoOverdueSite]).1[0]? = some demoOverdueSite :=
  overdue_suspended_fixpoints envOk 100000 [demoOverdueSite] 0 demoOverdueSite
    rfl (Or.inl rfl)

/-- C9: `initializeBilling` (invoked when a website first becomes deployed)
returns a record with status PENDING, `activatedAt = now`,
`graceEndsAt = now + 5` days, and `dueAt` equal to `graceEndsAt`, for every
combination of optional plan, optional price and cycle. -/
theorem initializeBilling_spec (plan : Option String) (price : Option Int)
    (cycle : String) (now : Int) :
    (initializeBilling plan price cycle now).status = BillingStatus.PENDING ∧
    (initializeBilling plan price cycle now).activatedAt = now ∧
    (initializeBilling plan price cycle now).graceEndsAt = addDays now 5 ∧
    (initializeBilling plan price cycle now).graceEndsAt = now + 5 ∧
    (initializeBilling plan price cycle now).dueAt =
      (initializeBilling plan price cycle now).graceEndsAt ∧
    (initializeBilling plan price cycle now).plan = plan ∧
    (initializeBilling plan price cycle now).price = price ∧
    (initializeBilling plan price cycle now).billingCycle = cycle :=
  ⟨rfl, rfl, rfl, rfl, rfl, rfl, rfl, rfl⟩

/-- C10: the run's transition counters count the records whose transition
decision fires, independently of whether the subsequent save succeeds
(the increment happens before persisting), while `errors` counts the
candidates whose save fails — so a candidate with a failing save is
counted both in its transition counter and in `errors`, and the reported
transition counts reflect attempted, not persisted, transitions. -/
theorem run_summary_counts_attempted_transitions
    (env : Nat → WebsiteEnv) (now : Int) (sites : List Website) :
    (runSites env now sites).2.1.pendingToSuspended = sites.countP (firesSuspension now) ∧
    (runSites env now sites).2.1.activeToOverdue = sites.countP (firesOverdue now) ∧
    (runSites env now sites).2.1.errors =
      sites.countP (fun w => isCandidate now w && !(env w.id).saveOk) ∧
    (∀ w : Website, firesSuspension now w = true → (env w.id).saveOk = false →
      (runSite env now w).2.1 = ⟨1, 0, 1⟩) := by
  refine ⟨runSites_pendingToSuspended env now sites,
    runSites_activeToOverdue env now sites,
    runSites_errors env now sites, ?_⟩
  intro w h1 hsv
  rw [runSite_summary, h1, firesSuspension_not_overdue h1]
  have hc : isCandidate now w = true := by simp [isCandidate, h1]
  rw [hc, hsv]
  rfl

theorem run_summary_counts_attempted_transitions_witness :
    (runSites env10 100 [demoC 5]).2.1.pendingToSuspended =
      [demoC 5].countP (firesSuspension 100) ∧
    (runSites env10 100 [demoC 5]).2.1.activeToOverdue =
      [demoC 5].countP (firesOverdue 100) ∧
    (runSites env10 100 [demoC 5]).2.1.errors =
      [demoC 5].countP (fun w => isCandidate 100 w && !(env10 w.id).saveOk) ∧
    (runSite env10 100 (demoC 5)).2.1 = ⟨1, 0, 1⟩ := by
  obtain ⟨h1, h2, h3, h4⟩ := run_summary_counts_attempted_transitions env10 100 [demoC 5]
  exact ⟨h1, h2, h3, h4 (demoC 5) (by decide) (by decide)⟩

/-- C5 counterexample: the claim says a notification is attempted only
after the record's transition has been successfully persisted. On a
concrete run with one PENDING candidate, the run's trace is the email
attempt FIRST and the save attempt SECOND, so `notifiedOnlyAfterPersist`
is false on the very trace the code produces. -/
theorem notification_only_after_persist_cex :
    updateBillingStatuses true envOk 100 [demoSite] =
      Except.ok ([{ demoSite with billing :=
          { demoPendingBilling with
            status := BillingStatus.SUSPENDED
            suspendedAt := some 100 } }],
        ⟨1, 0, 0⟩,
        [Event.emailAttempt 1 EmailKind.suspension true, Event.saveAttempt 1 true]) ∧
    notifiedOnlyAfterPersist
      [Event.emailAttempt 1 EmailKind.suspension true, Event.saveAttempt 1 true] = false :=
  ⟨rfl, rfl⟩

/-- C5 (amended): in the loop body the notification is attempted after the
in-memory transition but BEFORE the persist — the per-record trace is the
email attempts followed by the save attempt — and the notification outcome
never influences the stored state or the summary (best-effort: an email
failure neither prevents nor rolls back the persisted transition). -/
theorem notification_attempted_before_persist_best_effort
    (e e2 : WebsiteEnv) (now : Int) (w : Website)
    (hso : e.saveOk = e2.saveOk) :
    (∃ emails : List Event,
      (∀ ev ∈ emails, ev.isEmail = true) ∧
      ((processWebsite e now w).2.2 = emails ∨
       (processWebsite e now w).2.2 = emails ++ [Event.saveAttempt w.id e.saveOk])) ∧
    (processWebsite e now w).1 = (processWebsite e2 now w).1 ∧
    (processWebsite e now w).2.1 = (processWebsite e2 now w).2.1 := by
  refine ⟨?_, ?_, ?_⟩
  · rw [processWebsite_eq]
    by_cases h1 : firesSuspension now w = true
    · rw [if_pos h1]
      exact ⟨emailEvents e w.id EmailKind.suspension,
        emailEvents_isEmail e w.id EmailKind.suspension, Or.inr rfl⟩
    · rw [if_neg h1]
      by_cases h2 : firesOverdue now w = true
      · rw [if_pos h2]
        exact ⟨emailEvents e w.id EmailKind.overdue,
          emailEvents_isEmail e w.id EmailKind.overdue, Or.inr rfl⟩
      · rw [if_neg h2]
        refine ⟨[], ?_, Or.inl rfl⟩
        intro ev h
        simp at h
  · rw [processWebsite_eq, processWebsite_eq, hso]
    by_cases h1 : firesSuspension now w = true
    · rw [if_pos h1, if_pos h1]
    · rw [if_neg h1, if_neg h1]
      by_cases h2 : firesOverdue now w = true
      · rw [if_pos h2, if_pos h2]
      · rw [if_neg h2, if_neg h2]
  · rw [processWebsite_eq, processWebsite_eq, hso]
    by_cases h1 : firesSuspension now w = true
    · rw [if_pos h1, if_pos h1]
    · rw [if_neg h1, if_neg h1]
      by_cases h2 : firesOverdue now w = true
      · rw [if_pos h2, if_pos h2]
      · rw [if_neg h2, if_neg h2]

theorem notification_attempted_before_persist_best_effort_witness :
    (∃ emails : List Event,
      (∀ ev ∈ emails, ev.isEmail = true) ∧
      ((processWebsite ⟨true, false, true⟩ 100 demoSite).2.2 = emails ∨
       (processWebsite ⟨true, false, true⟩ 100 demoSite).2.2 =
         emails ++ [Event.saveAttempt demoSite.id true])) ∧
    (processWebsite ⟨true, false, true⟩ 100 demoSite).1 =
      (processWebsite ⟨true, true, true⟩ 100 demoSite).1 ∧
    (processWebsite ⟨true, false, true⟩ 100 demoSite).2.1 =
      (processWebsite ⟨true, true, true⟩ 100 demoSite).2.1 :=
  notification_attempted_before_persist_best_effort
    ⟨true, false, true⟩ ⟨true, true, true⟩ 100 demoSite rfl

/-- C7 counterexample: the claim says a failure while loading related data
for a candidate (the `WebsiteRequest.findById` lookup) is caught and
increments the errors count. In the code that lookup sits inside the
inner try/catch of the email block: its failure is only logged, no email
is attempted, the transition is still persisted, and `errors` stays 0.
Concretely, a run over one PENDING expired-grace candidate whose request
lookup fails reports `errors = 0` — not 1 — with the suspension
persisted and no email attempt in the trace. -/
theorem relatedDataLoadFailure_not_counted_cex :
    updateBillingStatuses true (fun _ => ⟨false, true, true⟩) 100 [demoSite] =
      Except.ok ([{ demoSite with billing :=
          { demoPendingBilling with
            status := BillingStatus.SUSPENDED
            suspendedAt := some 100 } }],
        ⟨1, 0, 0⟩,
        [Event.saveAttempt 1 true]) :=
  rfl

/-- C7 (amended): per-record failures are isolated, but only a failing
`website.save()` is counted: a failed candidate-set fetch, and only that,
aborts the run with an error; otherwise the run returns a summary whose
`errors` counts exactly the candidates whose save failed — a failure of
the related-data load or of the email send is caught inside the record's
processing and never counted — while every position of the store is
processed independently of every other record's outcome. -/
theorem run_isolates_per_record_failures
    (env : Nat → WebsiteEnv) (now : Int) (sites : List Website) :
    updateBillingStatuses false env now sites =
      Except.error "Failed to update billing statuses" ∧
    (∃ evs, updateBillingStatuses true env now sites =
      Except.ok (sites.map (fun w => (runSite env now w).1),
        ⟨sites.countP (firesSuspension now), sites.countP (firesOverdue now),
         sites.countP (fun w => isCandidate now w && !(env w.id).saveOk)⟩,
        evs)) ∧
    (∀ (i : Nat) (w : Website), sites[i]? = some w →
      (runSites env now sites).1[i]? = some ((runSite env now w).1)) := by
  have h1 := runSites_pendingToSuspended env now sites
  have h2 := runSites_activeToOverdue env now sites
  have h3 := runSites_errors env now sites
  have hsum : (runSites env now sites).2.1 =
      ⟨sites.countP (firesSuspension now), sites.countP (firesOverdue now),
       sites.countP (fun w => isCandidate now w && !(env w.id).saveOk)⟩ := by
    rcases hx : (runSites env now sites).2.1 with ⟨a, b, c⟩
    rw [hx] at h1 h2 h3
    show RunSummary.mk a b c = _
    rw [show a = sites.countP (firesSuspension now) from h1,
      show b = sites.countP (firesOverdue now) from h2,
      show c = sites.countP (fun w => isCandidate now w && !(env w.id).saveOk) from h3]
  refine ⟨rfl, ⟨(runSites env now sites).2.2, ?_⟩, ?_⟩
  · show Except.ok (runSites env now sites) = _
    rw [← hsum, ← runSites_state env now sites]
  · intro i w hiw
    rw [runSites_getElem?, hiw]
    rfl

theorem run_isolates_per_record_failures_witness :
    updateBillingStatuses false env10 100 demo10 =
      Except.error "Failed to update billing statuses" ∧
    (∃ evs, updateBillingStatuses true env10 100 demo10 =
      Except.ok (demo10.map (fun w => (runSite env10 100 w).1), ⟨10, 0, 1⟩, evs)) ∧
    (runSites env10 100 demo10).1[4]? = some ((runSite env10 100 (demoC 5)).1) := by
  obtain ⟨ha, ⟨evs, hb⟩, hc⟩ := run_isolates_per_record_failures env10 100 demo10
  refine ⟨ha, ⟨evs, ?_⟩, hc 4 (demoC 5) rfl⟩
  rw [hb]
  have hcnt : (⟨demo10.countP (firesSuspension 100), demo10.countP (firesOverdue 100),
      demo10.countP (fun w => isCandidate 100 w && !(env10 w.id).saveOk)⟩ : RunSummary) =
      ⟨10, 0, 1⟩ := by decide
  rw [hcnt]

/-- C8 counterexample: the claim says an out-of-domain status passed to the
admin `updateBilling` is rejected synchronously as a validation error and
never stored. On a concrete valid record, a request with status "FROZEN"
is answered with a 200 success (the invalid value is silently dropped, not
rejected), refuting the rejection half of the claim. -/
theorem updateBilling_invalid_status_not_rejected_cex :
    BillingStatus.values.contains "FROZEN" = false ∧
    updateBilling ⟨none, none, none, some "FROZEN"⟩ demoActiveBilling =
      (AdminResponse.ok demoActiveBilling, demoActiveBilling) :=
  ⟨rfl, rfl⟩

/-- C8 (amended): `updateBilling` keeps out-of-domain enum values out of
the store, but not by a synchronous validation rejection: a status outside
the enum is silently ignored (the request succeeds with the record
unchanged), while a billingCycle outside the enum is assigned in memory
and only fails mongoose schema validation at save time, surfacing as a
generic server error with the stored record unchanged. -/
theorem updateBilling_enum_domains
    (b : Billing) (s c : String)
    (hb : billingSchemaValid b = true)
    (hs : BillingStatus.values.contains s = false)
    (hc : cycleValues.contains c = false) :
    updateBilling ⟨none, none, none, some s⟩ b = (AdminResponse.ok b, b) ∧
    updateBilling ⟨none, none, some c, none⟩ b = (AdminResponse.serverError, b) := by
  have hs' : s ∉ BillingStatus.values := by simpa using hs
  have hc' : c ∉ cycleValues := by simpa using hc
  constructor
  · simp [updateBilling, hs', hb]
  · simp [updateBilling, billingSchemaValid, hc']

theorem updateBilling_enum_domains_witness :
    updateBilling ⟨none, none, none, some "FROZEN"⟩ demoActiveBilling =
      (AdminResponse.ok demoActiveBilling, demoActiveBilling) ∧
    updateBilling ⟨none, none, some "weekly", none⟩ demoActiveBilling =
      (AdminResponse.serverError, demoActiveBilling) :=
  updateBilling_enum_domains demoActiveBilling "FROZEN" "weekly"
    (by decide) (by decide) (by decide)
